import Mathlib

/-!
Shallow embedding of the windowed raster sampling engine of
`rasterTools_legacy/point_sampling.py` (class `pointSampling`), together with
proofs checking the specification's claims about it.

Conventions of the embedding:
* Raster cell values are embedded as `Int` (an integer-typed band); statistic
  results, which NumPy produces in floating point, are embedded as `ℚ`.
* Python `float` coordinate arithmetic is embedded exactly over `ℚ`;
  Python `int(...)` truncates toward zero, embedded by `ratTrunc`.
* A Python-level exception (the run aborting) is embedded as `none` in an
  `Option` result.
-/

namespace PointSampling

/-- Truncation toward zero of a rational, the behaviour of Python `int(x)`
on a real number. -/
def ratTrunc (q : ℚ) : Int :=
  Int.tdiv q.num q.den

/-- One axis of the window-fitting code, `point_sampling.py` lines 185-191
(x axis) and 192-198 (y axis):

    if xoff < 0:
        xwin = self._radius * 2 - abs(xoff)
        xoff = 0
    if xoff + (self._radius * 2) > cols:
        xwin = cols - xoff
    else:
        xwin = self._radius * 2

The assignment `xwin = radius * 2 - abs(xoff)` in the first branch is dead in
the source: the second `if`/`else` always runs afterwards and reassigns `xwin`
on both of its branches, so only the clamp `xoff = 0` survives from the first
branch. -/
def fitAxis (off0 r extent : Int) : Int × Int :=
  let off := if off0 < 0 then 0 else off0
  (off, if extent < off + r * 2 then extent - off else r * 2)

/-- Window fitting for a point already converted to pixel indices
(`px`, `py`), `point_sampling.py` lines 183-200.  After both axes are
fitted, radius 0 forces a 1×1 window (lines 199-200). -/
def fitWindow (px py r cols rows : Int) : Int × Int × Int × Int :=
  let x := fitAxis (px - r) r cols
  let y := fitAxis (py - r) r rows
  if r = 0 then (x.1, y.1, 1, 1) else (x.1, y.1, x.2, y.2)

/-- Window fitting from geographic coordinates, `point_sampling.py`
lines 183-184:

    xoff = int((point[0] - ulx) / resolution) - self._radius
    yoff = int((uly - point[1]) / resolution) - self._radius

followed by the clipping of `fitWindow`. -/
def computeWindow (x y ulx uly resolution : ℚ) (r cols rows : Int) :
    Int × Int × Int × Int :=
  fitWindow (ratTrunc ((x - ulx) / resolution)) (ratTrunc ((uly - y) / resolution))
    r cols rows

end PointSampling

namespace PointSampling

/-- C8 helper: the nominal window side, `max 1 (2 * r)` of the claim. -/
def nominalSide (r : Int) : Int := max 1 (2 * r)

end PointSampling

open PointSampling

/-- C8: for every point strictly inside the raster (its pixel index keeps a
margin of `r` pixels to every edge, so no clipping is needed on any side) and
every non-negative radius `r`, the fitted window keeps the raw offsets, has
width = height = max 1 (2*r), and lies fully within [0, cols) × [0, rows). -/
theorem fitWindow_interior (px py r cols rows : Int) (hr : 0 ≤ r)
    (hx0 : 0 ≤ px - r) (hx1 : px - r + nominalSide r ≤ cols)
    (hy0 : 0 ≤ py - r) (hy1 : py - r + nominalSide r ≤ rows) :
    fitWindow px py r cols rows = (px - r, py - r, nominalSide r, nominalSide r) ∧
    0 ≤ px - r ∧ px - r + nominalSide r ≤ cols ∧
    0 ≤ py - r ∧ py - r + nominalSide r ≤ rows := by
  refine ⟨?_, hx0, hx1, hy0, hy1⟩
  rcases eq_or_lt_of_le hr with hr0 | hrpos
  · -- radius 0: the 1×1 window, offsets not negative by hypothesis
    subst hr0
    simp only [fitWindow, fitAxis, nominalSide] at *
    have hx : ¬ (px - 0 < 0) := by omega
    have hy : ¬ (py - 0 < 0) := by omega
    simp [hx, hy]
    omega
  · -- radius ≥ 1: nominal side is 2*r and neither clip fires
    have hside : nominalSide r = 2 * r := by
      simp only [nominalSide]
      omega
    rw [hside] at hx1 hy1 ⊢
    have hrne : ¬ (r = 0) := by omega
    simp only [fitWindow, fitAxis, hrne, if_false]
    have hx : ¬ (px - r < 0) := by omega
    have hy : ¬ (py - r < 0) := by omega
    simp only [hx, if_false, hy]
    have hxc : ¬ (cols < px - r + r * 2) := by omega
    have hyc : ¬ (rows < py - r + r * 2) := by omega
    simp [hxc, hyc]
    omega

/-- C8 witness: pixel (2,2), radius 1, 5×5 raster — window (1,1,2,2) inside
bounds. -/
theorem fitWindow_interior_witness :
    fitWindow 2 2 1 5 5 = ((2 : Int) - 1, (2 : Int) - 1, nominalSide 1, nominalSide 1) ∧
    (0 : Int) ≤ 2 - 1 ∧ (2 : Int) - 1 + nominalSide 1 ≤ 5 ∧
    (0 : Int) ≤ 2 - 1 ∧ (2 : Int) - 1 + nominalSide 1 ≤ 5 :=
  fitWindow_interior 2 2 1 5 5 (by decide) (by decide) (by decide) (by decide)
    (by decide)

/-- C1: at the raster's top-left corner — point (0,0), origin (0,0),
resolution 1, radius 2, 4×4 raster — the claim (and the spec's scenario)
expect the window (0, 0, 2, 2): the lower-bound overflow of 2 should shrink
width and height to 2.  The code instead yields (0, 0, 4, 4): the shrink
`xwin = radius * 2 - abs(xoff)` computed in the `xoff < 0` branch is
unconditionally overwritten by the following `if`/`else`
(`xwin = cols - xoff` or `xwin = radius * 2`), so the lower-bound clip only
ever clamps the offset, never the size. -/
theorem computeWindow_corner_clip_bug :
    computeWindow 0 0 0 0 1 2 4 4 = (0, 0, 4, 4) ∧
    computeWindow 0 0 0 0 1 2 4 4 ≠ (0, 0, 2, 2) := by
  have h : ratTrunc ((0 - 0) / 1) = 0 := by
    norm_num [ratTrunc]
  constructor
  · simp only [computeWindow]
    rw [h]
    decide
  · simp only [computeWindow]
    rw [h]
    decide

namespace PointSampling

/-- A raster band as the sampling loop sees it through GDAL: an (optional)
no-data value from `band.GetNoDataValue()` and the pixel grid, `pix x y`
being the value at column `x`, row `y`.  Values are embedded as `Int`
(an integer-typed band), so the native-type coercion `dt(...)` of the source
is the identity on in-range numerals. -/
structure Band where
  noData : Option Int
  pix : Int → Int → Int

/-- GDAL `band.ReadAsArray(xoff, yoff, xwin, ywin)` on a `cols`×`rows` band,
modelled from GDAL's documented behaviour: a request whose window is
degenerate (non-positive size) or not fully inside the band fails, so the
Python caller gets no array (`none`); otherwise the result is the list of
`ywin` rows of `xwin` values each. -/
def readAsArray (band : Band) (cols rows xoff yoff xwin ywin : Int) :
    Option (List (List Int)) :=
  if 0 ≤ xoff ∧ 0 ≤ yoff ∧ 0 < xwin ∧ 0 < ywin ∧
      xoff + xwin ≤ cols ∧ yoff + ywin ≤ rows then
    some ((List.range ywin.toNat).map (fun j =>
      (List.range xwin.toNat).map (fun i => band.pix (xoff + i) (yoff + j))))
  else
    none

/-- NumPy comparison of a band value against the band's no-data value
(`window != no_data`): when the band has no no-data value (`None`), the
elementwise comparison with `None` is never equal, so everything is kept. -/
def isNoData (noData : Option Int) (v : Int) : Bool :=
  match noData with
  | none => false
  | some n => v == n

/-- Value filtering, `point_sampling.py` lines 203-208:

    if len(window) > 1:
        window = window[window != no_data]
        window = window[window != dt(self._dismiss)]
    else:
        if window.flatten()[0] == self._dismiss or window.flatten()[0] == no_data:
            window = np.array([])

`len` of a 2-D NumPy array is its number of ROWS, so the first branch runs
exactly when the window has more than one row.  Boolean-mask indexing
flattens row-major, embedded as `List.flatten` plus `List.filter`.  In the
first branch `dt(self._dismiss)` applies the band's NumPy type constructor to
the raw option value: on a supplied value it parses it into the native type
(identity here), but on an absent dismiss value it is `dt(None)`, which
raises `TypeError` — embedded as `none` (the run aborts).  In the second
branch the first element is compared against the RAW option value
(a string or `None`), and a NumPy numeric scalar never equals either, so
only the no-data comparison can empty the window there; an empty window
would make `flatten()[0]` raise `IndexError` (`none`). -/
def filterWindow (window : List (List Int)) (noData : Option Int)
    (dismiss : Option Int) : Option (List Int) :=
  if 1 < window.length then
    match dismiss with
    | none => none
    | some d =>
      some (((window.flatten.filter (fun v => !(isNoData noData v))).filter
        (fun v => !(v == d))))
  else
    match window.flatten with
    | [] => none
    | v :: _ => if isNoData noData v then some [] else some window.flatten

end PointSampling

/-- C3 counterexample: the window [[5, -9999]] has two elements but a single
row, so the code takes the single-element branch, inspects only the first
element, and keeps the whole window — the no-data element -9999 is NOT
removed, contradicting the claim that every window with more than one
element is filtered (the filtered result is not the remaining values [5]). -/
theorem filterWindow_row_counterexample :
    filterWindow [[5, -9999]] (some (-9999)) (some 0) = some [5, -9999] ∧
    filterWindow [[5, -9999]] (some (-9999)) (some 0) ≠ some [5] := by
  constructor
  · rfl
  · decide

/-- C3 amended: for every raw sampled window with more than one ROW (not
element) and a supplied dismiss value, the filtering step removes every
element equal to the band's no-data value and every element equal to the
dismiss value (coerced to the band's native type, the identity in this
integer embedding), and the result is the flat row-major sequence of the
remaining values. -/
theorem filterWindow_multirow_filters (window : List (List Int)) (nd d : Int)
    (hrows : 1 < window.length) :
    filterWindow window (some nd) (some d) =
      some (window.flatten.filter (fun v => v ≠ nd ∧ v ≠ d)) := by
  simp only [filterWindow, if_pos hrows]
  congr 1
  rw [List.filter_filter]
  apply List.filter_congr
  intro v _
  simp only [isNoData]
  by_cases h1 : v = nd <;> by_cases h2 : v = d <;> simp [h1, h2]

/-- C3 amended witness: a 2×2 window with one no-data and one dismissed
cell filters to the two remaining values. -/
theorem filterWindow_multirow_filters_witness :
    filterWindow [[5, -9999], [3, 0]] (some (-9999)) (some 0) =
      some (([[5, -9999], [3, 0]] : List (List Int)).flatten.filter
        (fun v => v ≠ -9999 ∧ v ≠ 0)) :=
  filterWindow_multirow_filters [[5, -9999], [3, 0]] (-9999) 0 (by decide)

/-- C4: with no dismiss value supplied, a window with more than one row makes
the source evaluate `dt(None)` — the band's NumPy type constructor applied to
`None` — which raises `TypeError` and aborts the run, contradicting the claim
that the absence of a dismiss value never causes a failure.  (A single-row
window does complete, applying only the no-data check to its first element.) -/
theorem filterWindow_no_dismiss_crash :
    filterWindow [[1, 2], [3, 4]] (some (-9999)) none = none ∧
    filterWindow [[7]] (some (-9999)) none = some [7] := by
  constructor
  · rfl
  · rfl

namespace PointSampling

/-- Sorted copy of a list, for the median. -/
def sortedList (l : List Int) : List Int :=
  List.insertionSort (fun a b => a ≤ b) l

/-- NumPy median of a (here integer-valued, so never masked) array:
sort, take the middle element, or the mean of the two middle elements. -/
def medianQ (l : List Int) : ℚ :=
  let s := sortedList l
  let n := s.length
  if n % 2 = 1 then ((s.getD (n / 2) 0 : Int) : ℚ)
  else (((s.getD (n / 2 - 1) 0 : Int) : ℚ) + ((s.getD (n / 2) 0 : Int) : ℚ)) / 2

/-- Minimum of a non-empty integer list (np.nanmin on an integer array). -/
def listMin : List Int → Int
  | [] => 0
  | x :: xs => xs.foldl min x

/-- Maximum of a non-empty integer list (np.nanmax on an integer array). -/
def listMax : List Int → Int
  | [] => 0
  | x :: xs => xs.foldl max x

/-- Number of occurrences of `v` in `l`, one cell of `np.bincount`. -/
def countOf (l : List Int) (v : Int) : Nat :=
  (l.filter (fun x => x == v)).length

/-- The majority computation `np.bincount(arr).argmax()` for a non-negative
integer array: scan the counts of the values 0, 1, …, max and keep the first
(hence lowest) value whose count is strictly larger than the incumbent's. -/
def bincountArgmax (l : List Int) : Int :=
  (List.map (fun n : Nat => (n : Int)) (List.range ((listMax l).toNat + 1))).foldl
    (fun best i => if countOf l best < countOf l i then i else best) 0

/-- The statistic reducer `pointSampling._calculateStats`
(`point_sampling.py` lines 275-294).  An empty array yields the no-data
value whatever the mode; median/mean/min/max are exact on an integer-typed
band (`np.ma.masked_invalid` masks nothing); `majority` applies
`np.bincount(...).argmax()` after `astype(int)` (the identity here), and
`np.bincount` raises `ValueError` on any negative input — embedded as the
outer `none`; an unrecognized mode silently yields Python `None`
(the inner `none`). -/
def calculateStats (array : List Int) (mode : String) (nodata : Option ℚ) :
    Option (Option ℚ) :=
  if array.length = 0 then some nodata
  else if mode = "median" then some (some (medianQ array))
  else if mode = "mean" then
    some (some (((array.foldl (fun a b => a + b) 0 : Int) : ℚ) / (array.length : ℚ)))
  else if mode = "min" then some (some ((listMin array : ℚ)))
  else if mode = "max" then some (some ((listMax array : ℚ)))
  else if mode = "majority" then
    if array.all (fun v => 0 ≤ v) then some (some ((bincountArgmax array : ℚ)))
    else none
  else some none

/-- Fact used by several claims: on a non-empty array the reducer's
majority branch is `np.bincount(...).argmax()` guarded by bincount's
rejection of negative inputs. -/
theorem calculateStats_majority_eq (l : List Int) (nd : Option ℚ)
    (h : l.length ≠ 0) :
    calculateStats l "majority" nd =
      if l.all (fun v => 0 ≤ v) then some (some ((bincountArgmax l : ℚ)))
      else none := by
  simp only [calculateStats, if_neg h]
  simp

/-- Command-line options as `optparse` delivers them to `checkOptions`:
every value is a raw string (or absent), except the typed `radius` and the
boolean `overwrite` flag.  In particular the dismiss value arrives as a
string. -/
structure Options where
  image : Option String
  pointsFile : Option String
  radius : Int
  mode : String
  bands : Option String
  dismiss : Option String
  fieldNames : Option String
  crs : String
  outFile : Option String
  overwrite : Bool

/-- The configuration state `checkOptions` leaves in the instance fields. -/
structure Config where
  image : String
  pointsFile : String
  radius : Int
  mode : String
  bands : Option (List String)
  dismiss : Option String
  fieldNames : Option (List String)
  crs : String
  outFile : Option String
  overwrite : Bool

/-- Python truthiness of an optional string option (`None` and the empty
string are falsy). -/
def falsy : Option String → Bool
  | none => true
  | some s => s.isEmpty

/-- The option validation `pointSampling.checkOptions` (`point_sampling.py`
lines 80-120): it exits (`error`) when the image or the points file is
missing, and it aborts with a `TypeError` when no output file is given,
because `os.path.exists(self._output)` is then called on `None` (line 95).
When an output file exists and `overwrite` is unset the source only PRINTS a
message and keeps going (no `sys.exit`), so that situation does not affect
the returned configuration.  Every other option — the statistic mode
included — is stored without validation. -/
def checkOptions (o : Options) : Except String Config :=
  if falsy o.image then Except.error "No input image!"
  else if falsy o.pointsFile then Except.error "No sampling points!"
  else
    match o.image, o.pointsFile, o.outFile with
    | some img, some pts, some out =>
      Except.ok
        { image := img, pointsFile := pts, radius := o.radius, mode := o.mode,
          bands := if falsy o.bands then none
            else some ((o.bands.getD "").splitOn ","),
          dismiss := o.dismiss,
          fieldNames := if falsy o.fieldNames then none
            else some ((o.fieldNames.getD "").splitOn ","),
          crs := o.crs, outFile := some out, overwrite := o.overwrite }
    | _, _, none => Except.error "TypeError: exists() got None"
    | _, _, _ => Except.error "unreachable"

end PointSampling

/-- C6: for every statistic mode string (so in particular for median, mean,
min, max and majority) and every no-data value, reducing an empty filtered
array returns the no-data value: `_calculateStats` short-circuits on
`array.size == 0` before ever looking at the mode. -/
theorem calculateStats_empty_nodata (mode : String) (nd : Option ℚ) :
    calculateStats [] mode nd = some nd :=
  rfl

/-- C5: an unrecognized statistic mode is NOT rejected at setup time —
`checkOptions` stores any mode string and reports success — and it IS
handled per-sample: on a non-empty sample `_calculateStats` falls through
every recognized branch and silently produces Python `None`, which the
sampling loop writes as the attribute value.  This contradicts the claim
that the mode is validated before sampling begins. -/
theorem checkOptions_accepts_unknown_mode :
    checkOptions
      { image := some "img.tif", pointsFile := some "pts.shp", radius := 1,
        mode := "frobnicate", bands := none, dismiss := none,
        fieldNames := none, crs := "raster", outFile := some "out.shp",
        overwrite := false } =
      Except.ok
        { image := "img.tif", pointsFile := "pts.shp", radius := 1,
          mode := "frobnicate", bands := none, dismiss := none,
          fieldNames := none, crs := "raster", outFile := some "out.shp",
          overwrite := false } ∧
    calculateStats [1] "frobnicate" (some 0) = some none := by
  constructor
  · rfl
  · rfl

/-- C7 counterexample: on the non-empty filtered array [-1] the majority
reducer does not return the most frequent value (or any scalar):
`np.bincount` rejects the negative input and raises `ValueError`. -/
theorem calculateStats_majority_negative_counterexample :
    calculateStats [-1] "majority" (some 0) = none := by
  rfl

/-- C10: for every non-empty filtered array containing at least one negative
value, the majority reducer does not return a scalar: `np.bincount` over the
integer-coerced values rejects negative inputs and raises, so majority mode
is only total over non-negative integer samples. -/
theorem majority_negative_raises (l : List Int) (nd : Option ℚ) (x : Int)
    (hne : l ≠ []) (hx : x ∈ l) (hxneg : x < 0) :
    calculateStats l "majority" nd = none := by
  have hlen : l.length ≠ 0 := by
    simpa [List.length_eq_zero] using hne
  rw [calculateStats_majority_eq l nd hlen]
  have hall : l.all (fun v => 0 ≤ v) = false := by
    rw [List.all_eq_false]
    exact ⟨x, hx, by simpa using hxneg⟩
  simp [hall]

/-- C10 witness: the array [-1, 5] contains a negative value and the
majority reducer raises on it. -/
theorem majority_negative_raises_witness :
    calculateStats [-1, 5] "majority" (some 0) = none :=
  majority_negative_raises [-1, 5] (some 0) (-1) (by decide) (by decide)
    (by decide)

namespace PointSampling

/-- The argmax scan of `np.bincount(...).argmax()` written as an explicit
fold from an incumbent `b` over the remaining candidate values `cs`:
the incumbent is replaced only by a strictly more frequent candidate. -/
def argmaxFrom (l : List Int) (b : Int) (cs : List Int) : Int :=
  cs.foldl (fun best i => if countOf l best < countOf l i then i else best) b

/-- The candidate values scanned by `np.bincount(arr).argmax()`:
0, 1, …, max(arr), in ascending order. -/
def candidates (l : List Int) : List Int :=
  List.map (fun n : Nat => (n : Int)) (List.range ((listMax l).toNat + 1))

theorem bincountArgmax_eq_argmaxFrom (l : List Int) :
    bincountArgmax l = argmaxFrom l 0 (candidates l) :=
  rfl

theorem argmaxFrom_cons (l : List Int) (b i : Int) (rest : List Int) :
    argmaxFrom l b (i :: rest) =
      argmaxFrom l (if countOf l b < countOf l i then i else b) rest :=
  rfl

/-- Specification of the first-maximum fold: scanning candidates in
ascending order and replacing the incumbent only on a strictly larger count
yields a candidate whose count dominates every scanned value and which is
the LOWEST among the equally-most-frequent ones. -/
theorem argmaxFrom_spec (l : List Int) (cs : List Int) :
    ∀ b : Int, List.Sorted (fun a c : Int => a ≤ c) (b :: cs) →
      (argmaxFrom l b cs = b ∨ argmaxFrom l b cs ∈ cs) ∧
      countOf l b ≤ countOf l (argmaxFrom l b cs) ∧
      (∀ i ∈ cs, countOf l i ≤ countOf l (argmaxFrom l b cs)) ∧
      (countOf l b = countOf l (argmaxFrom l b cs) → argmaxFrom l b cs ≤ b) ∧
      (∀ i ∈ cs, countOf l i = countOf l (argmaxFrom l b cs) →
        argmaxFrom l b cs ≤ i) := by
  induction cs with
  | nil =>
    intro b _
    refine ⟨Or.inl rfl, le_refl _, ?_, fun _ => le_refl _, ?_⟩
    · intro i hi; cases hi
    · intro i hi; cases hi
  | cons i rest ih =>
    intro b hsorted
    rw [List.sorted_cons] at hsorted
    obtain ⟨hble, hsortedtail⟩ := hsorted
    have hbi : b ≤ i := hble i (List.mem_cons_self i rest)
    have hbrest : ∀ j ∈ rest, b ≤ j :=
      fun j hj => hble j (List.mem_cons_of_mem i hj)
    have hsi : List.Sorted (fun a c : Int => a ≤ c) (i :: rest) := hsortedtail
    rw [List.sorted_cons] at hsortedtail
    obtain ⟨hirest, hsortedrest⟩ := hsortedtail
    rw [argmaxFrom_cons]
    by_cases hc : countOf l b < countOf l i
    · rw [if_pos hc]
      obtain ⟨hmem, hb, hall, htb, hti⟩ := ih i hsi
      refine ⟨?_, ?_, ?_, ?_, ?_⟩
      · rcases hmem with h | h
        · exact Or.inr (by rw [h]; exact List.mem_cons_self i rest)
        · exact Or.inr (List.mem_cons_of_mem i h)
      · exact le_of_lt (lt_of_lt_of_le hc hb)
      · intro j hj
        rcases List.mem_cons.mp hj with h | h
        · subst h; exact hb
        · exact hall j h
      · intro he
        exact absurd he (Nat.ne_of_lt (lt_of_lt_of_le hc hb))
      · intro j hj he
        rcases List.mem_cons.mp hj with h | h
        · subst h; exact htb he
        · exact hti j h he
    · rw [if_neg hc]
      have hsb : List.Sorted (fun a c : Int => a ≤ c) (b :: rest) := by
        rw [List.sorted_cons]
        exact ⟨hbrest, hsortedrest⟩
      obtain ⟨hmem, hb, hall, htb, hti⟩ := ih b hsb
      have hib : countOf l i ≤ countOf l b := Nat.le_of_not_lt hc
      refine ⟨?_, hb, ?_, htb, ?_⟩
      · rcases hmem with h | h
        · exact Or.inl h
        · exact Or.inr (List.mem_cons_of_mem i h)
      · intro j hj
        rcases List.mem_cons.mp hj with h | h
        · subst h; exact le_trans hib hb
        · exact hall j h
      · intro j hj he
        rcases List.mem_cons.mp hj with h | h
        · subst h
          have heb : countOf l b = countOf l (argmaxFrom l b rest) := by
            omega
          exact le_trans (htb heb) hbi
        · exact hti j h he

theorem le_foldl_max (xs : List Int) : ∀ a : Int, a ≤ xs.foldl max a := by
  induction xs with
  | nil => intro a; simp
  | cons x xs ih =>
    intro a
    simp only [List.foldl_cons]
    exact le_trans (le_max_left a x) (ih (max a x))

theorem mem_le_foldl_max (xs : List Int) :
    ∀ a x : Int, x ∈ xs → x ≤ xs.foldl max a := by
  induction xs with
  | nil => intro a x hx; cases hx
  | cons y ys ih =>
    intro a x hx
    simp only [List.foldl_cons]
    rcases List.mem_cons.mp hx with h | h
    · subst h; exact le_trans (le_max_right a x) (le_foldl_max ys (max a x))
    · exact ih (max a y) x h

theorem le_listMax (l : List Int) (x : Int) (hx : x ∈ l) : x ≤ listMax l := by
  cases l with
  | nil => cases hx
  | cons y ys =>
    simp only [listMax]
    rcases List.mem_cons.mp hx with h | h
    · subst h; exact le_foldl_max ys x
    · exact mem_le_foldl_max ys y x h

theorem mem_candidates (l : List Int) (hpos : ∀ x ∈ l, 0 ≤ x) (w : Int)
    (hw : w ∈ l) : w ∈ candidates l := by
  have h0 : 0 ≤ w := hpos w hw
  have hmax : w ≤ listMax l := le_listMax l w hw
  have hlt : w.toNat < (listMax l).toNat + 1 := by omega
  have hm : ((w.toNat : Nat) : Int) ∈ candidates l := by
    simp only [candidates]
    exact List.mem_map_of_mem _ (List.mem_range.mpr hlt)
  rwa [Int.toNat_of_nonneg h0] at hm

theorem candidates_sorted (l : List Int) :
    List.Sorted (fun a c : Int => a ≤ c) ((0 : Int) :: candidates l) := by
  rw [List.sorted_cons]
  constructor
  · intro c hc
    simp only [candidates] at hc
    obtain ⟨n, _, rfl⟩ := List.mem_map.mp hc
    exact Int.natCast_nonneg n
  · simp only [candidates, List.Sorted]
    refine List.Pairwise.map (fun n : Nat => (n : Int)) ?_ (List.pairwise_lt_range _)
    intro a b h
    show ((a : Nat) : Int) ≤ ((b : Nat) : Int)
    exact_mod_cast Nat.le_of_lt h

theorem countOf_pos_of_mem (l : List Int) (x : Int) (hx : x ∈ l) :
    0 < countOf l x := by
  have : x ∈ l.filter (fun y => y == x) :=
    List.mem_filter.mpr ⟨hx, by simp⟩
  exact List.length_pos.mpr (List.ne_nil_of_mem this)

theorem mem_of_countOf_pos (l : List Int) (v : Int) (h : 0 < countOf l v) :
    v ∈ l := by
  obtain ⟨x, hx⟩ := List.exists_mem_of_length_pos h
  have := List.mem_filter.mp hx
  have hxv : x = v := by simpa using this.2
  exact hxv ▸ this.1

end PointSampling

/-- C7 (amended): for every non-empty filtered array whose values are all
non-negative, the majority reducer returns `np.bincount(...).argmax()`, a
value occurring in the array whose frequency dominates every other value's
and which is the LOWEST among the equally-most-frequent values; in
particular reducing [1, 1, 1, 2, 2] with mode "majority" yields 1.
(The non-negativity restriction is forced: on a negative input `np.bincount`
raises instead of returning a value.) -/
theorem majority_most_frequent_lowest_tie (l : List Int) (nd : Option ℚ)
    (hne : l ≠ []) (hpos : ∀ x ∈ l, 0 ≤ x) :
    calculateStats l "majority" nd = some (some ((bincountArgmax l : ℚ))) ∧
    bincountArgmax l ∈ l ∧
    (∀ w ∈ l, countOf l w ≤ countOf l (bincountArgmax l)) ∧
    (∀ w ∈ l, countOf l w = countOf l (bincountArgmax l) → bincountArgmax l ≤ w) ∧
    calculateStats [1, 1, 1, 2, 2] "majority" nd = some (some 1) := by
  have hlen : l.length ≠ 0 := by simpa [List.length_eq_zero] using hne
  have hall : l.all (fun v => 0 ≤ v) = true := by
    rw [List.all_eq_true]
    intro x hx
    simpa using hpos x hx
  obtain ⟨hmem, hb0, hallc, htb0, htiec⟩ :=
    argmaxFrom_spec l (candidates l) 0 (candidates_sorted l)
  rw [← bincountArgmax_eq_argmaxFrom] at hmem hb0 hallc htb0 htiec
  refine ⟨?_, ?_, ?_, ?_, ?_⟩
  · rw [calculateStats_majority_eq l nd hlen, if_pos hall]
  · obtain ⟨x₀, hx₀⟩ := List.exists_mem_of_ne_nil l hne
    have hx₀c : x₀ ∈ candidates l := mem_candidates l hpos x₀ hx₀
    have : 0 < countOf l (bincountArgmax l) :=
      lt_of_lt_of_le (countOf_pos_of_mem l x₀ hx₀) (hallc x₀ hx₀c)
    exact mem_of_countOf_pos l (bincountArgmax l) this
  · intro w hw
    exact hallc w (mem_candidates l hpos w hw)
  · intro w hw he
    exact htiec w (mem_candidates l hpos w hw) he
  · rw [calculateStats_majority_eq _ nd (by decide), if_pos (by decide)]
    have h1 : bincountArgmax [1, 1, 1, 2, 2] = 1 := by decide
    rw [h1]
    norm_num

/-- C7 amended witness: the concrete array [1, 1, 1, 2, 2]. -/
theorem majority_most_frequent_lowest_tie_witness :
    calculateStats [1, 1, 1, 2, 2] "majority" (some 0) =
      some (some ((bincountArgmax [1, 1, 1, 2, 2] : ℚ))) ∧
    bincountArgmax [1, 1, 1, 2, 2] ∈ [1, 1, 1, 2, 2] ∧
    (∀ w ∈ [1, 1, 1, 2, 2], countOf [1, 1, 1, 2, 2] w ≤
      countOf [1, 1, 1, 2, 2] (bincountArgmax [1, 1, 1, 2, 2])) ∧
    (∀ w ∈ [1, 1, 1, 2, 2], countOf [1, 1, 1, 2, 2] w =
      countOf [1, 1, 1, 2, 2] (bincountArgmax [1, 1, 1, 2, 2]) →
      bincountArgmax [1, 1, 1, 2, 2] ≤ w) ∧
    calculateStats [1, 1, 1, 2, 2] "majority" (some 0) = some (some 1) :=
  majority_most_frequent_lowest_tie [1, 1, 1, 2, 2] (some 0) (by decide)
    (by decide)

namespace PointSampling

theorem ratTrunc_intCast (n : Int) : ratTrunc ((n : Int) : ℚ) = n := by
  simp [ratTrunc, Rat.num_intCast, Rat.den_intCast, Int.tdiv_one]

/-- One (band, point) iteration of the sampling loop, `point_sampling.py`
lines 182-210: fit the sampling window, read it with `band.ReadAsArray`,
filter it, reduce it with `_calculateStats`.  The overall result is `none`
when the iteration raises and aborts the run (a failed read makes
`len(window)` a `len(None)` `TypeError`; the filter can raise on `dt(None)`),
and otherwise `some` of the value written into the point's attribute
(itself `none` when `_calculateStats` produced Python `None`). -/
def samplePoint (band : Band) (cols rows : Int) (ulx uly resolution : ℚ)
    (r : Int) (dismiss : Option Int) (mode : String) (x y : ℚ) :
    Option (Option ℚ) :=
  match computeWindow x y ulx uly resolution r cols rows with
  | (xoff, yoff, xwin, ywin) =>
    match readAsArray band cols rows xoff yoff xwin ywin with
    | none => none
    | some window =>
      match filterWindow window band.noData dismiss with
      | none => none
      | some flat =>
        calculateStats flat mode (band.noData.map (fun n : Int => (n : ℚ)))

/-- A sample band for concrete instances: no-data -9999, constant value 7. -/
def band0 : Band :=
  { noData := some (-9999), pix := fun _ _ => 7 }

end PointSampling

/-- C2: a point whose sampling window falls entirely outside the raster is a
FATAL error in the code, not the claimed no-data result.  Concretely: on a
4×4 raster (origin (0,0), resolution 1) the point (10, -2) with radius 1 gets
the clipped window (xoff 9, yoff 1, width -5, height 2) — width ≤ 0, entirely
outside — and `band.ReadAsArray` fails on that degenerate window, so
`len(window)` raises `TypeError` on `None` and the run aborts (`none`)
instead of emitting the band's no-data sentinel. -/
theorem samplePoint_out_of_bounds_fatal :
    (computeWindow 10 (-2) 0 0 1 1 4 4).2.2.1 ≤ 0 ∧
    samplePoint band0 4 4 0 0 1 1 (some 0) "median" 10 (-2) = none := by
  have ha : ((10 : ℚ) - 0) / 1 = ((10 : Int) : ℚ) := by norm_num
  have hb : ((0 : ℚ) - (-2)) / 1 = ((2 : Int) : ℚ) := by norm_num
  have h1 : computeWindow 10 (-2) 0 0 1 1 4 4 = (9, 1, -5, 2) := by
    simp only [computeWindow, ha, hb, ratTrunc_intCast]
    decide
  constructor
  · rw [h1]
    decide
  · simp only [samplePoint, h1]
    rfl

namespace PointSampling

/-- A per-(band, point) sampling result as held by the vector layer:
`none` while unwritten, `some v` after the loop's `feat.SetField` /
`lyr.SetFeature` wrote `v`. -/
abbrev SampleRes := Option (Option ℚ)

/-- The attribute state of the vector layer during the sampling pass,
indexed by band position and point index. -/
def Store := Nat → Nat → Option SampleRes

/-- Writing one attribute value (`feat.SetField` + `lyr.SetFeature`,
`point_sampling.py` lines 212-214). -/
def writeField (s : Store) (b p : Nat) (v : SampleRes) : Store :=
  fun q t => if q = b ∧ t = p then some v else s q t

/-- The inner point loop for one band (`for p, point in enumerate(points)`,
lines 181-215): write the sample of every point index below `n`. -/
def writeRange (g : Nat → SampleRes) (b : Nat) (n : Nat) (s : Store) : Store :=
  (List.range n).foldl (fun s p => writeField s b p (g p)) s

/-- The raster dataset as the sampling pass reads it: extent, affine origin
and resolution from `GetGeoTransform`, and `GetRasterBand`. -/
structure Raster where
  cols : Int
  rows : Int
  ulx : ℚ
  uly : ℚ
  resolution : ℚ
  getBand : Int → Band

/-- The full sampling pass (`for b, bandnum in enumerate(self._bands)` over
`for p, point in enumerate(points)`, `point_sampling.py` lines 170-216),
threading the mutable attribute state of the layer through both loops. -/
def runPass (img : Raster) (pts : List (ℚ × ℚ)) (bandList : List Int)
    (mode : String) (r : Int) (dismiss : Option Int) (s : Store) : Store :=
  (List.range bandList.length).foldl (fun s b =>
    writeRange (fun p =>
      samplePoint (img.getBand (bandList.getD b 0)) img.cols img.rows
        img.ulx img.uly img.resolution r dismiss mode
        (pts.getD p (0, 0)).1 (pts.getD p (0, 0)).2) b pts.length s) s

theorem writeRange_apply (g : Nat → SampleRes) (b : Nat) (n : Nat) (s : Store)
    (q t : Nat) :
    writeRange g b n s q t = if q = b ∧ t < n then some (g t) else s q t := by
  induction n with
  | zero => simp [writeRange]
  | succ n ih =>
    have hstep : writeRange g b (n + 1) s = writeField (writeRange g b n s) b n (g n) := by
      simp [writeRange, List.range_succ, List.foldl_append]
    rw [hstep, writeField]
    by_cases hq : q = b
    · subst hq
      by_cases ht : t = n
      · subst ht
        simp
      · by_cases htn : t < n
        · have h3 : t < n + 1 := by omega
          simp [ht, htn, h3, ih]
        · have h3 : ¬ (t < n + 1) := by omega
          simp [ht, htn, h3, ih]
    · simp [hq, ih]

theorem foldl_writeRange_apply (g : Nat → Nat → SampleRes) (m n : Nat)
    (s : Store) (q t : Nat) :
    ((List.range m).foldl (fun s b => writeRange (g b) b n s) s) q t =
      if q < m ∧ t < n then some (g q t) else s q t := by
  induction m with
  | zero => simp
  | succ m ih =>
    rw [List.range_succ, List.foldl_append]
    simp only [List.foldl_cons, List.foldl_nil]
    rw [writeRange_apply]
    by_cases hq : q = m
    · subst hq
      by_cases ht : t < n
      · simp [ht, Nat.lt_succ_self]
      · simp [ht, ih]
    · rw [ih]
      by_cases hql : q < m
      · have h3 : q < m + 1 := by omega
        simp [hq, hql, h3]
      · have h3 : ¬ (q < m + 1) := by omega
        simp [hq, hql, h3]

theorem runPass_apply (img : Raster) (pts : List (ℚ × ℚ))
    (bandList : List Int) (mode : String) (r : Int) (dismiss : Option Int)
    (s : Store) (b p : Nat) :
    runPass img pts bandList mode r dismiss s b p =
      if b < bandList.length ∧ p < pts.length then
        some (samplePoint (img.getBand (bandList.getD b 0)) img.cols img.rows
          img.ulx img.uly img.resolution r dismiss mode
          (pts.getD p (0, 0)).1 (pts.getD p (0, 0)).2)
      else s b p := by
  simp only [runPass]
  exact foldl_writeRange_apply
    (fun b p =>
      samplePoint (img.getBand (bandList.getD b 0)) img.cols img.rows
        img.ulx img.uly img.resolution r dismiss mode
        (pts.getD p (0, 0)).1 (pts.getD p (0, 0)).2)
    bandList.length pts.length s b p

/-- A sample raster for concrete instances: 4×4, origin (0,0), resolution 1,
every band is `band0`. -/
def img0 : Raster :=
  { cols := 4, rows := 4, ulx := 0, uly := 0, resolution := 1,
    getBand := fun _ => band0 }

/-- An empty attribute store. -/
def store0 : Store := fun _ _ => none

/-- A store carrying stale values from an earlier pass. -/
def store1 : Store := fun _ _ => some (some (some 1))

end PointSampling

/-- C9: the sampling pass is deterministic and carries no hidden mutable
state between runs: the value the pass leaves at every sampled
(band, point) pair is exactly the pure per-pair sample — a function of the
raster, the point, the band and the read-only configuration only — and in
particular it does not depend on the attribute state the pass starts from,
so running the same pass twice (or from any stale previous state) yields
identical results at every sampled pair. -/
theorem runPass_deterministic (img : Raster) (pts : List (ℚ × ℚ))
    (bandList : List Int) (mode : String) (r : Int) (dismiss : Option Int)
    (s₁ s₂ : Store) (b p : Nat)
    (hb : b < bandList.length) (hp : p < pts.length) :
    runPass img pts bandList mode r dismiss s₁ b p =
      some (samplePoint (img.getBand (bandList.getD b 0)) img.cols img.rows
        img.ulx img.uly img.resolution r dismiss mode
        (pts.getD p (0, 0)).1 (pts.getD p (0, 0)).2) ∧
    runPass img pts bandList mode r dismiss s₁ b p =
      runPass img pts bandList mode r dismiss s₂ b p := by
  have h1 := runPass_apply img pts bandList mode r dismiss s₁ b p
  have h2 := runPass_apply img pts bandList mode r dismiss s₂ b p
  rw [if_pos ⟨hb, hp⟩] at h1 h2
  exact ⟨h1, h1.trans h2.symm⟩

/-- C9 witness: one band, one point, starting once from the empty store and
once from a store full of stale values. -/
theorem runPass_deterministic_witness :
    runPass img0 [(1, -1)] [1] "median" 0 none store0 0 0 =
      some (samplePoint (img0.getBand (([1] : List Int).getD 0 0)) img0.cols
        img0.rows img0.ulx img0.uly img0.resolution 0 none "median"
        (([((1 : ℚ), (-1 : ℚ))].getD 0 (0, 0)).1)
        (([((1 : ℚ), (-1 : ℚ))].getD 0 (0, 0)).2)) ∧
    runPass img0 [(1, -1)] [1] "median" 0 none store0 0 0 =
      runPass img0 [(1, -1)] [1] "median" 0 none store1 0 0 :=
  runPass_deterministic img0 [(1, -1)] [1] "median" 0 none store0 store1 0 0
    (by simp) (by simp)
